import Mathlib

/-!
Verification of the streaming CSV price-analyzer core.

Shallow embedding conventions:
* C++ `double` is modelled as `ℚ` (exact field arithmetic; IEEE rounding is
  out of scope), `long` as `ℤ`, `std::string` as `List Char`.
* `std::deque<double>` is a `List ℚ` (front = oldest element).
* The numeric conversion routines `std::strtod` and `std::from_chars`
  are external library functions; they are modelled from their documented
  behaviour on decimal inputs (see `strtod` and `fromCharsLong` below).
* `VolatilityIndicator::get_value` calls `std::sqrt`; it is modelled with
  `Real.sqrt`, which is the only noncomputable ingredient.  All state
  transitions and all rational-valued queries are computable.
-/

/-- `enum class IndicatorType` from `indicators.hpp`. -/
inductive IndicatorType where
  | SMA
  | EMA
  | VOLATILITY
  | VWAP
deriving DecidableEq

/-- State of `class SMAIndicator` (`indicators.hpp`): a FIFO of retained
prices plus the configured window size. -/
structure SMAIndicator where
  prices : List ℚ
  window_size : ℕ
deriving DecidableEq

/-- The shared push-then-evict step used by the deque-based indicators:
`push_back(x)` followed by `pop_front()` when the length exceeds `N`. -/
def pushEvict (N : ℕ) (q : List ℚ) (x : ℚ) : List ℚ :=
  if N < (q ++ [x]).length then (q ++ [x]).tail else q ++ [x]

/-- `SMAIndicator::update`: append the price, evict the oldest when the
window overflows. -/
def SMAIndicator.update (s : SMAIndicator) (price : ℚ) : SMAIndicator :=
  { s with prices := pushEvict s.window_size s.prices price }

/-- `SMAIndicator::get_value`: arithmetic mean of the retained prices,
`0.0` when none are retained. -/
def SMAIndicator.get_value (s : SMAIndicator) : ℚ :=
  if s.prices = [] then 0 else s.prices.sum / (s.prices.length : ℚ)

/-- State of `class EMAIndicator` (`indicators.hpp`). -/
structure EMAIndicator where
  current_ema : ℚ
  alpha : ℚ
  first_price : Bool
deriving DecidableEq

/-- `EMAIndicator::update`: seed with the first price, then apply the
exponential smoothing recursion. -/
def EMAIndicator.update (e : EMAIndicator) (price : ℚ) : EMAIndicator :=
  if e.first_price then
    { e with current_ema := price, first_price := false }
  else
    { e with current_ema := e.alpha * price + (1 - e.alpha) * e.current_ema }

/-- `EMAIndicator::get_value`. -/
def EMAIndicator.get_value (e : EMAIndicator) : ℚ :=
  e.current_ema

/-- State of `class VolatilityIndicator` (`indicators.hpp`): a FIFO of
retained percentage returns plus the window size. -/
structure VolatilityIndicator where
  returns : List ℚ
  window_size : ℕ
deriving DecidableEq

/-- `VolatilityIndicator::update`: append the return, evict the oldest when
the window overflows. -/
def VolatilityIndicator.update (v : VolatilityIndicator) (return_val : ℚ) :
    VolatilityIndicator :=
  { v with returns := pushEvict v.window_size v.returns return_val }

/-- The sample mean computed inside `VolatilityIndicator::get_value`. -/
def listMean (l : List ℚ) : ℚ :=
  l.sum / (l.length : ℚ)

/-- The `sum_squared_diffs` loop of `VolatilityIndicator::get_value`. -/
def sumSquaredDiffs (l : List ℚ) (mean : ℚ) : ℚ :=
  (l.map (fun r => (r - mean) * (r - mean))).sum

/-- The sample variance (Bessel `n-1` denominator) computed inside
`VolatilityIndicator::get_value`. -/
def VolatilityIndicator.variance (v : VolatilityIndicator) : ℚ :=
  sumSquaredDiffs v.returns (listMean v.returns) / ((v.returns.length : ℚ) - 1)

/-- `VolatilityIndicator::get_value`: `0.0` below two samples, otherwise the
sample standard deviation `sqrt(sum((r-mean)^2)/(n-1))`.  `std::sqrt` is
modelled with `Real.sqrt`. -/
noncomputable def VolatilityIndicator.get_value (v : VolatilityIndicator) : ℝ :=
  if v.returns.length < 2 then 0 else Real.sqrt ((v.variance : ℚ) : ℝ)

/-- State of `class VWAPIndicator` (`indicators.hpp`). -/
structure VWAPIndicator where
  price_volume_sum : ℚ
  volume_sum : ℤ
  current_date : List Char
deriving DecidableEq

/-- `VWAPIndicator::update`: derive the session key as the leading 10
characters of the timestamp, reset both accumulators when it differs from
the stored key, then accumulate `price*volume` and `volume`. -/
def VWAPIndicator.update (w : VWAPIndicator) (price : ℚ) (volume : ℤ)
    (timestamp : List Char) : VWAPIndicator :=
  let new_date := timestamp.take 10
  if w.current_date ≠ new_date then
    { price_volume_sum := 0 + price * (volume : ℚ),
      volume_sum := 0 + volume,
      current_date := new_date }
  else
    { w with
      price_volume_sum := w.price_volume_sum + price * (volume : ℚ),
      volume_sum := w.volume_sum + volume }

/-- `VWAPIndicator::get_value`: `0.0` when the volume accumulator is zero,
otherwise the accumulated ratio. -/
def VWAPIndicator.get_value (w : VWAPIndicator) : ℚ :=
  if w.volume_sum = 0 then 0 else w.price_volume_sum / (w.volume_sum : ℚ)

/-- State of `class Series` (`indicators.hpp`): one instance of each
indicator plus the `last_price` return baseline (`0.0` sentinel). -/
structure Series where
  sma : SMAIndicator
  ema : EMAIndicator
  volatility : VolatilityIndicator
  vwap : VWAPIndicator
  last_price : ℚ
deriving DecidableEq

/-- The `Series` constructor: empty indicator states, `last_price = 0.0`. -/
def Series.init (sma_window : ℕ) (ema_alpha : ℚ) (vol_window : ℕ) : Series :=
  { sma := ⟨[], sma_window⟩,
    ema := ⟨0, ema_alpha, true⟩,
    volatility := ⟨[], vol_window⟩,
    vwap := ⟨0, 0, []⟩,
    last_price := 0 }

/-- `Series::update`: seed branch when `last_price == 0`, otherwise compute
the return and update all four sub-indicators. -/
def Series.update (s : Series) (price : ℚ) (volume : ℤ) (ts : List Char) :
    Series :=
  if s.last_price = 0 then
    { s with last_price := price }
  else
    let return_value := price / s.last_price - 1
    { sma := s.sma.update price,
      ema := s.ema.update price,
      volatility := s.volatility.update return_value,
      vwap := s.vwap.update price volume ts,
      last_price := price }

/-- Division guarded against a zero denominator; used to express that
`Series::update` never reaches `price / last_price` with `last_price == 0`
(`ℚ` division is total, so unreachability is phrased through `Option`). -/
def divChecked (a b : ℚ) : Option ℚ :=
  if b = 0 then none else some (a / b)

/-- `Series::update` with the division routed through `divChecked`: returns
`none` exactly when the return computation would divide by zero. -/
def Series.updateChecked (s : Series) (price : ℚ) (volume : ℤ)
    (ts : List Char) : Option Series :=
  if s.last_price = 0 then
    some { s with last_price := price }
  else
    (divChecked price s.last_price).map fun q =>
      { sma := s.sma.update price,
        ema := s.ema.update price,
        volatility := s.volatility.update (q - 1),
        vwap := s.vwap.update price volume ts,
        last_price := price }

/-- `Series::get_indicator`: dispatch to the sub-indicator's `get_value`.
The values are reals because the volatility branch takes a square root;
the rational-valued branches are cast.  The C++ `default:` throw is
unreachable over the closed enumeration. -/
noncomputable def Series.get_indicator (s : Series) : IndicatorType → ℝ
  | IndicatorType.SMA => (s.sma.get_value : ℝ)
  | IndicatorType.EMA => (s.ema.get_value : ℝ)
  | IndicatorType.VOLATILITY => s.volatility.get_value
  | IndicatorType.VWAP => (s.vwap.get_value : ℝ)

/-! ## Tokenizer and row parser (`CSVAnalyzer` in `part_000`) -/

/-- `struct FieldRange` from `csv.hpp`, with the pointer replaced by an
offset into the owning line; `{nullptr, 0}` (the zero-initialised unfilled
slot) becomes `⟨0, 0⟩`. -/
structure FieldRange where
  start : ℕ
  length : ℕ
deriving DecidableEq

/-- The character-walking loop of `CSVAnalyzer::split_csv_line`: `rest` is
the unread tail of the line, `pos` the current index, `fstart` the index at
which the current field began.  A span is recorded at each comma and at the
end of the line. -/
def splitAux : List Char → ℕ → ℕ → List FieldRange
  | [], pos, fstart => [⟨fstart, pos - fstart⟩]
  | c :: cs, pos, fstart =>
    if c = ',' then ⟨fstart, pos - fstart⟩ :: splitAux cs (pos + 1) (pos + 1)
    else splitAux cs (pos + 1) fstart

/-- The spans actually recorded by `split_csv_line`'s loop, which stops
after the fourth field (`field_index < 4`). -/
def filledFields (line : List Char) : List FieldRange :=
  (splitAux line 0 0).take 4

/-- `CSVAnalyzer::split_csv_line`: the four-element array, the slots the
loop never reached staying zero-initialised. -/
def split_csv_line (line : List Char) : List FieldRange :=
  filledFields line ++ List.replicate (4 - (filledFields line).length) ⟨0, 0⟩

/-- Read a field's text back out of the line (`std::string(start, length)`
or the span handed to a numeric conversion). -/
def extractField (line : List Char) (f : FieldRange) : List Char :=
  (line.drop f.start).take f.length

/-- Number of comma delimiters in a line. -/
def commaCount (line : List Char) : ℕ :=
  line.countP (fun c => c = ',')

/-- `spansCover len pos fs` holds when the spans `fs`, in order, tile the
index range `[pos, len)` exactly: each span starts where the previous one
ended (plus its comma), the first starts at `pos`, and the last ends at
`len`.  This is the "non-overlapping, contiguous, covering" output
guarantee of the tokenizer. -/
def spansCover (len : ℕ) : ℕ → List FieldRange → Bool
  | _, [] => true
  | pos, [f] => f.start = pos && pos + f.length = len
  | pos, f :: g :: fs => f.start = pos && spansCover len (pos + f.length + 1) (g :: fs)

/-! ### Models of the external numeric conversions

`std::strtod` and `std::from_chars` live in the C library, not in this
repository.  They are modelled from their documented behaviour on the
decimal forms the analyzer feeds them (optional whitespace and sign,
decimal digits with an optional point and exponent for `strtod`; an
optional minus sign and decimal digits for `from_chars<long>`); the hex,
infinity and NaN forms of `strtod` are outside the model.  Both return the
number of characters consumed, which is what `parse_line`'s end-pointer
and error-code checks inspect. -/

/-- Numeric value of a decimal digit. -/
def digToNat (c : Char) : ℕ :=
  c.toNat - 48

/-- Consume a maximal run of decimal digits, returning their value, their
count and the unread remainder. -/
def takeDigits : List Char → ℕ → ℕ → ℕ × ℕ × List Char
  | [], acc, cnt => (acc, cnt, [])
  | c :: cs, acc, cnt =>
    if c.isDigit then takeDigits cs (10 * acc + digToNat c) (cnt + 1)
    else (acc, cnt, c :: cs)

/-- Characters skipped by `strtod`'s leading-whitespace phase. -/
def isSpaceChar (c : Char) : Bool :=
  c = ' ' || c = '\t' || c = '\n' || c = '\r' || c = '\x0b' || c = '\x0c'

/-- Modelled from the spec: `std::strtod` on decimal forms.  Returns the
parsed value and the number of characters consumed; a consumed count of `0`
models `end_ptr == start` (no conversion performed). -/
def strtod (cs : List Char) : ℚ × ℕ :=
  let ws := (cs.takeWhile isSpaceChar).length
  let rest0 := cs.drop ws
  let (sgn, signLen, rest1) :=
    match rest0 with
    | '-' :: r => ((-1 : ℚ), 1, r)
    | '+' :: r => ((1 : ℚ), 1, r)
    | r => ((1 : ℚ), 0, r)
  let (ip, ipLen, rest2) := takeDigits rest1 0 0
  let (fp, fpLen, dotLen, rest3) :=
    match rest2 with
    | '.' :: r =>
      match takeDigits r 0 0 with
      | (f, fl, r2) => (f, fl, 1, r2)
    | r => (0, 0, 0, r)
  if ipLen + fpLen = 0 then ((0 : ℚ), 0)
  else
    let mant : ℚ := sgn * ((ip : ℚ) + (fp : ℚ) / (10 : ℚ) ^ fpLen)
    let baseLen := ws + signLen + ipLen + dotLen + fpLen
    match rest3 with
    | 'e' :: r => strtodExp mant baseLen r
    | 'E' :: r => strtodExp mant baseLen r
    | _ => (mant, baseLen)
where
  /-- The optional exponent phase: consumed only when at least one digit
  follows the `e` and its optional sign. -/
  strtodExp (mant : ℚ) (baseLen : ℕ) (r : List Char) : ℚ × ℕ :=
    let (esgn, esLen, r1) :=
      match r with
      | '-' :: rr => ((-1 : ℤ), 1, rr)
      | '+' :: rr => ((1 : ℤ), 1, rr)
      | rr => ((1 : ℤ), 0, rr)
    let (ev, evLen, _) := takeDigits r1 0 0
    if evLen = 0 then (mant, baseLen)
    else (mant * (10 : ℚ) ^ (esgn * (ev : ℤ)), baseLen + 1 + esLen + evLen)

/-- Modelled from the spec: `std::from_chars(first, last, long)`.  Accepts
an optional minus sign and a non-empty digit run; `none` models a non-success
error code (`invalid_argument` when no digits lead, `result_out_of_range`
when the value overflows `long`).  On success returns the value and the
number of characters consumed — trailing garbage is *not* an error. -/
def fromCharsLong (cs : List Char) : Option (ℤ × ℕ) :=
  let (sgn, signLen, rest) :=
    match cs with
    | '-' :: r => ((-1 : ℤ), 1, r)
    | r => ((1 : ℤ), 0, r)
  let (v, dLen, _) := takeDigits rest 0 0
  if dLen = 0 then none
  else
    let val := sgn * (v : ℤ)
    if val < -(2 ^ 63) ∨ 2 ^ 63 - 1 < val then none
    else some (val, signLen + dLen)

/-- `struct ParsedRow` from `csv.hpp`. -/
structure ParsedRow where
  timestamp : List Char
  symbol : List Char
  price : ℚ
  volume : ℤ
  valid : Bool
deriving DecidableEq

/-- `ParsedRow::invalid()`. -/
def ParsedRow.invalid : ParsedRow :=
  ⟨[], [], 0, 0, false⟩

/-- `CSVAnalyzer::parse_line` (`part_000`): split the line, take timestamp
and symbol verbatim, parse the price with `strtod` demanding full
consumption of the field, parse the volume with `from_chars` demanding only
a success error code.  The C++ `fields.size() != 4` guard compares the
fixed size of a `std::array` and can never fire; it is omitted.

The result is an `Option`: when the line has fewer than 2 commas, the loop
recorded at most two spans, so `fields[2]` is still the zero-initialised
`{nullptr, 0}` slot and the code calls `strtod(nullptr, &end_ptr)` —
undefined behaviour (a crash in practice, since `strtod` dereferences its
argument).  `none` models reaching that call; no `ParsedRow` exists there.
The constructions `std::string(nullptr, 0)` for the timestamp/symbol slots
and `from_chars(nullptr, nullptr)` for the volume slot are, by contrast,
well defined (a null pointer with count 0 is a valid empty range), so a
line with exactly 2 commas fails gracefully: the empty volume range yields
`invalid_argument` and the row comes back with `valid = false`. -/
def parse_line (line : List Char) : Option ParsedRow :=
  let fields := split_csv_line line
  if (filledFields line).length ≤ 2 then none
  else
    let ts := extractField line (fields.getD 0 ⟨0, 0⟩)
    let sym := extractField line (fields.getD 1 ⟨0, 0⟩)
    let priceField := fields.getD 2 ⟨0, 0⟩
    let pr := strtod (extractField line priceField)
    if pr.2 = 0 ∨ pr.2 ≠ priceField.length then some ParsedRow.invalid
    else
      match fromCharsLong (extractField line (fields.getD 3 ⟨0, 0⟩)) with
      | none => some ParsedRow.invalid
      | some (vol, _) => some ⟨ts, sym, pr.1, vol, true⟩

/-! ## Stream driver (`CSVAnalyzer::process_file` and row printing) -/

/-- `struct CLIConfig` from `csv.hpp` (the fields the core consumes). -/
structure CLIConfig where
  sma_window : ℕ
  ema_span : ℕ
  vol_window : ℕ
  output_sma : Bool
  output_ema : Bool
  output_vol : Bool
  output_vwap : Bool
  filter_symbol : List Char
deriving DecidableEq

/-- `span_to_alpha` from `csv.hpp`: `alpha = 2 / (span + 1)`. -/
def span_to_alpha (span : ℕ) : ℚ :=
  2 / ((span : ℚ) + 1)

/-- The `Series` built by `get_or_create_series` for a missing symbol. -/
def mkSeries (cfg : CLIConfig) : Series :=
  Series.init cfg.sma_window (span_to_alpha cfg.ema_span) cfg.vol_window

/-- The per-symbol registry `std::unordered_map<std::string, Series>`,
modelled as an association list (iteration order is never observed). -/
abbrev Registry : Type :=
  List (List Char × Series)

/-- Map lookup. -/
def registryGet (reg : Registry) (sym : List Char) : Option Series :=
  match reg with
  | [] => none
  | (k, v) :: rest => if k = sym then some v else registryGet rest sym

/-- Store a series under a symbol: overwrite the existing entry, or append
a new one (the `emplace` of `get_or_create_series` followed by the in-place
mutation through the returned reference). -/
def registrySet (reg : Registry) (sym : List Char) (s : Series) : Registry :=
  match reg with
  | [] => [(sym, s)]
  | (k, v) :: rest =>
    if k = sym then (k, s) :: rest else (k, v) :: registrySet rest sym s

/-- One iteration of the `process_file` loop (`part_000`): skip empty
lines, parse, skip invalid rows, apply the optional symbol filter, then
fetch-or-create the symbol's series, update it, and emit the row paired
with the post-update series state (`print_csv_row` reads exactly this
state).  The outer `Option` propagates `parse_line`'s `none`: a line that
drives `parse_line` into `strtod(nullptr)` makes the whole run undefined,
so no post-state exists. -/
def processLine (cfg : CLIConfig) (reg : Registry) (line : List Char) :
    Option (Registry × Option (ParsedRow × Series)) :=
  if line = [] then some (reg, none)
  else
    match parse_line line with
    | none => none
    | some row =>
      if row.valid = false then some (reg, none)
      else if cfg.filter_symbol ≠ [] ∧ row.symbol ≠ cfg.filter_symbol then
        some (reg, none)
      else
        let s := (registryGet reg row.symbol).getD (mkSeries cfg)
        let s2 := s.update row.price row.volume row.timestamp
        some (registrySet reg row.symbol s2, some (row, s2))

/-- The whole `process_file` loop over a list of input lines, collecting
the emitted rows in order; `none` once any line makes the run undefined. -/
def processLines (cfg : CLIConfig) (lines : List (List Char)) :
    Option (Registry × List (ParsedRow × Series)) :=
  lines.foldl
    (fun acc line =>
      match acc with
      | none => none
      | some st =>
        match processLine cfg st.1 line with
        | none => none
        | some (reg2, none) => some (reg2, st.2)
        | some (reg2, some r) => some (reg2, st.2 ++ [r]))
    (some ([], []))

/-- The indicator columns appended by `print_csv_row` in `part_000`
(lines 273–298): `sma, ema, volatility, vwap` in that fixed order, each
present exactly when its configuration flag is set. -/
noncomputable def printRowIndicators (cfg : CLIConfig) (s : Series) : List ℝ :=
  (if cfg.output_sma then [s.get_indicator IndicatorType.SMA] else []) ++
  (if cfg.output_ema then [s.get_indicator IndicatorType.EMA] else []) ++
  (if cfg.output_vol then [s.get_indicator IndicatorType.VOLATILITY] else []) ++
  (if cfg.output_vwap then [s.get_indicator IndicatorType.VWAP] else [])

/-- The indicator columns appended by `CSVAnalyzer::print_csv_row` in
`src/analyzer.cpp` (lines 126–142), translated exactly as written: the
`output_ema` branch on line 133 prints `get_indicator(IndicatorType::SMA)`. -/
noncomputable def printRowIndicatorsMain (cfg : CLIConfig) (s : Series) : List ℝ :=
  (if cfg.output_sma then [s.get_indicator IndicatorType.SMA] else []) ++
  (if cfg.output_ema then [s.get_indicator IndicatorType.SMA] else []) ++
  (if cfg.output_vol then [s.get_indicator IndicatorType.VOLATILITY] else []) ++
  (if cfg.output_vwap then [s.get_indicator IndicatorType.VWAP] else [])

/-- Feeding a whole price sequence to a freshly constructed SMA. -/
def feedSMA (N : ℕ) (ps : List ℚ) : SMAIndicator :=
  ps.foldl SMAIndicator.update ⟨[], N⟩

/-- Feeding a whole return sequence to a freshly constructed volatility
indicator. -/
def feedVol (N : ℕ) (rs : List ℚ) : VolatilityIndicator :=
  rs.foldl VolatilityIndicator.update ⟨[], N⟩

/-! ## Helper lemmas -/

-- `Rat`'s arithmetic is `@[irreducible]` in the library; restore the
-- default reducibility inside this file so that concrete rational
-- computations can be settled by `decide`.
attribute [local semireducible] Rat.add Rat.mul Rat.sub Rat.inv

/-- Folding the push-then-evict step keeps exactly the most recent `N`
elements: starting from a deque `d` that is within its capacity, the final
deque is the length-`N` suffix of `d ++ ps`. -/
theorem foldl_pushEvict (N : ℕ) (ps : List ℚ) :
    ∀ d : List ℚ, d.length ≤ N →
      ps.foldl (pushEvict N) d = (d ++ ps).drop (d.length + ps.length - N) := by
  induction ps with
  | nil =>
    intro d h
    rw [List.foldl_nil, List.append_nil]
    have h0 : d.length + ([] : List ℚ).length - N = 0 := by
      simp only [List.length_nil]
      omega
    rw [h0, List.drop_zero]
  | cons p ps ih =>
    intro d h
    rw [List.foldl_cons]
    by_cases hN : N < (d ++ [p]).length
    · have hdN : d.length = N := by
        simp only [List.length_append, List.length_cons, List.length_nil] at hN
        omega
      have hstep : pushEvict N d p = (d ++ [p]).tail := by
        unfold pushEvict
        rw [if_pos hN]
      rw [hstep]
      cases d with
      | nil =>
        have hN0 : N = 0 := by
          simp only [List.length_nil] at hdN
          omega
        rw [List.nil_append, List.tail_cons, ih [] (by simp)]
        simp only [List.length_nil, List.length_cons, List.nil_append, hN0,
          Nat.zero_add, Nat.sub_zero]
        rw [List.drop_succ_cons]
      | cons a d2 =>
        have hlen2 : d2.length + 1 = N := by
          simp only [List.length_cons] at hdN
          omega
        rw [(by simp : ((a :: d2) ++ [p]).tail = d2 ++ [p])]
        have hle : (d2 ++ [p]).length ≤ N := by
          simp only [List.length_append, List.length_cons, List.length_nil]
          omega
        rw [ih (d2 ++ [p]) hle]
        have e1 : (d2 ++ [p]).length + ps.length - N = ps.length := by
          simp only [List.length_append, List.length_cons, List.length_nil]
          omega
        have e2 : (a :: d2).length + (p :: ps).length - N = ps.length + 1 := by
          simp only [List.length_cons]
          omega
        rw [e1, e2]
        simp [List.append_assoc]
    · have hstep : pushEvict N d p = d ++ [p] := by
        unfold pushEvict
        rw [if_neg hN]
      rw [hstep]
      have hle : (d ++ [p]).length ≤ N := by
        simp only [List.length_append, List.length_cons, List.length_nil] at hN ⊢
        omega
      rw [ih (d ++ [p]) hle]
      have e1 : (d ++ [p]).length + ps.length - N = d.length + (p :: ps).length - N := by
        simp only [List.length_append, List.length_cons, List.length_nil]
        omega
      rw [e1, (by simp : (d ++ [p]) ++ ps = d ++ p :: ps)]
/-- `SMAIndicator.update` only touches the deque, through `pushEvict`. -/
theorem foldl_smaUpdate (ps : List ℚ) :
    ∀ s : SMAIndicator,
      (ps.foldl SMAIndicator.update s).prices
        = ps.foldl (pushEvict s.window_size) s.prices ∧
      (ps.foldl SMAIndicator.update s).window_size = s.window_size := by
  induction ps with
  | nil => exact fun s => ⟨rfl, rfl⟩
  | cons p ps ih =>
    intro s
    rw [List.foldl_cons, List.foldl_cons]
    exact ih (s.update p)

/-- The deque retained by a fresh SMA after a whole price sequence is the
suffix of the most recent `min (ps.length) N` prices. -/
theorem feedSMA_prices (N : ℕ) (ps : List ℚ) :
    (feedSMA N ps).prices = ps.drop (ps.length - N) := by
  unfold feedSMA
  rw [(foldl_smaUpdate ps ⟨[], N⟩).1]
  simpa using foldl_pushEvict N ps [] (by simp)

/-- `VolatilityIndicator.update` only touches the deque, through
`pushEvict`. -/
theorem foldl_volUpdate (rs : List ℚ) :
    ∀ v : VolatilityIndicator,
      (rs.foldl VolatilityIndicator.update v).returns
        = rs.foldl (pushEvict v.window_size) v.returns ∧
      (rs.foldl VolatilityIndicator.update v).window_size = v.window_size := by
  induction rs with
  | nil => exact fun v => ⟨rfl, rfl⟩
  | cons r rs ih =>
    intro v
    rw [List.foldl_cons, List.foldl_cons]
    exact ih (v.update r)

/-- The deque retained by a fresh volatility indicator after a whole
return sequence is the suffix of the most recent `min (rs.length) N`
returns. -/
theorem feedVol_returns (N : ℕ) (rs : List ℚ) :
    (feedVol N rs).returns = rs.drop (rs.length - N) := by
  unfold feedVol
  rw [(foldl_volUpdate rs ⟨[], N⟩).1]
  simpa using foldl_pushEvict N rs [] (by simp)

/-- The tokenizer loop records one span per comma plus the final field. -/
theorem splitAux_length :
    ∀ (rest : List Char) (pos fstart : ℕ),
      (splitAux rest pos fstart).length = commaCount rest + 1 := by
  intro rest
  induction rest with
  | nil =>
    intro pos fstart
    simp [splitAux, commaCount]
  | cons c cs ih =>
    intro pos fstart
    by_cases hc : c = ','
    · simp [splitAux, hc, commaCount, List.countP_cons, ih]
    · simp [splitAux, hc, commaCount, List.countP_cons, ih]

/-- The tokenizer loop always records at least one span. -/
theorem splitAux_ne_nil (rest : List Char) (pos fstart : ℕ) :
    splitAux rest pos fstart ≠ [] := by
  intro h
  have := splitAux_length rest pos fstart
  rw [h] at this
  simp at this

/-- Unfold `spansCover` over a cons with a non-empty tail. -/
theorem spansCover_cons (len pos : ℕ) (f : FieldRange) (l : List FieldRange)
    (hl : l ≠ []) :
    spansCover len pos (f :: l)
      = (decide (f.start = pos) && spansCover len (pos + f.length + 1) l) := by
  cases l with
  | nil => exact absurd rfl hl
  | cons g fs => rfl

/-- The spans recorded by the tokenizer loop tile exactly the index range
from the current field start to the end of the line. -/
theorem splitAux_cover :
    ∀ (rest : List Char) (pos fstart : ℕ), fstart ≤ pos →
      spansCover (pos + rest.length) fstart (splitAux rest pos fstart) = true := by
  intro rest
  induction rest with
  | nil =>
    intro pos fstart h
    simp only [splitAux, spansCover, List.length_nil, Nat.add_zero,
      decide_eq_true_eq, Bool.and_eq_true, eq_self_iff_true, true_and]
    omega
  | cons c cs ih =>
    intro pos fstart h
    by_cases hc : c = ','
    · simp only [splitAux, if_pos hc]
      rw [spansCover_cons _ _ _ _ (splitAux_ne_nil cs (pos + 1) (pos + 1))]
      have hrec := ih (pos + 1) (pos + 1) (Nat.le_refl _)
      have harith : pos + (c :: cs).length = (pos + 1) + cs.length := by
        simp only [List.length_cons]
        omega
      have hpos : fstart + (pos - fstart) + 1 = pos + 1 := by omega
      rw [harith, hpos]
      simp [hrec]
    · simp only [splitAux, if_neg hc]
      have hrec := ih (pos + 1) fstart (by omega)
      have harith : pos + (c :: cs).length = (pos + 1) + cs.length := by
        simp only [List.length_cons]
        omega
      rw [harith]
      exact hrec

/-- With at most three commas the loop's four slots hold every span, so
the recorded spans tile the whole line. -/
theorem filledFields_cover (line : List Char) (h : commaCount line ≤ 3) :
    spansCover line.length 0 (filledFields line) = true := by
  unfold filledFields
  rw [List.take_of_length_le (by rw [splitAux_length]; omega)]
  have := splitAux_cover line 0 0 (Nat.le_refl 0)
  simpa using this

/-- `List.getD` into a replicated default gives the default. -/
theorem getD_replicate_default (n i : ℕ) (a : FieldRange) :
    (List.replicate n a).getD i a = a := by
  induction n generalizing i with
  | zero => simp [List.getD]
  | succ m ih =>
    cases i with
    | zero => simp [List.replicate]
    | succ j =>
      rw [List.replicate]
      exact ih j

/-- Slots of `split_csv_line` past the recorded fields hold the
zero-initialised span. -/
theorem split_getD_default (line : List Char) (i : ℕ)
    (h : commaCount line + 1 ≤ i) :
    (split_csv_line line).getD i ⟨0, 0⟩ = ⟨0, 0⟩ := by
  unfold split_csv_line
  have hlen : (filledFields line).length ≤ i := by
    unfold filledFields
    rw [List.length_take, splitAux_length]
    omega
  rw [List.getD_append_right _ _ _ _ hlen, getD_replicate_default]

/-- The empty span reads back as the empty field. -/
theorem extract_default (line : List Char) :
    extractField line (⟨0, 0⟩ : FieldRange) = [] := by
  simp [extractField]

/-- How many spans the tokenizer loop actually writes. -/
theorem filledFields_length (line : List Char) :
    (filledFields line).length = min (commaCount line + 1) 4 := by
  unfold filledFields
  rw [List.length_take, splitAux_length]
  omega

/-- Unfolded form of `parse_line` (the `let` bindings expanded). -/
theorem parse_line_eq (line : List Char) :
    parse_line line =
      (if (filledFields line).length ≤ 2 then none
       else if (strtod (extractField line ((split_csv_line line).getD 2 ⟨0, 0⟩))).2 = 0 ∨
          (strtod (extractField line ((split_csv_line line).getD 2 ⟨0, 0⟩))).2 ≠
            ((split_csv_line line).getD 2 ⟨0, 0⟩).length then some ParsedRow.invalid
       else
         match fromCharsLong (extractField line ((split_csv_line line).getD 3 ⟨0, 0⟩)) with
         | none => some ParsedRow.invalid
         | some (vol, _) =>
           some ⟨extractField line ((split_csv_line line).getD 0 ⟨0, 0⟩),
            extractField line ((split_csv_line line).getD 1 ⟨0, 0⟩),
            (strtod (extractField line ((split_csv_line line).getD 2 ⟨0, 0⟩))).1,
            vol, true⟩) :=
  rfl

/-- `parse_line` hits undefined behaviour (`strtod(nullptr)`, modelled as
`none`) exactly on the lines whose price slot the loop never filled: those
with fewer than 2 commas. -/
theorem parse_line_none_iff (line : List Char) :
    parse_line line = none ↔ commaCount line < 2 := by
  rw [parse_line_eq]
  have hmin := filledFields_length line
  by_cases h : (filledFields line).length ≤ 2
  · rw [if_pos h]
    rw [hmin] at h
    exact iff_of_true rfl (by omega)
  · rw [if_neg h]
    rw [hmin] at h
    refine iff_of_false ?_ (by omega)
    intro hx
    split at hx
    · exact Option.noConfusion hx
    · split at hx
      · exact Option.noConfusion hx
      · exact Option.noConfusion hx

/-- A line with exactly 2 commas is parsed gracefully to an invalid row:
the price slot is a real field, and the volume slot is the well-defined
empty range on which `from_chars` reports `invalid_argument`. -/
theorem parse_line_invalid_of_two_commas (line : List Char)
    (h : commaCount line = 2) :
    parse_line line = some ParsedRow.invalid := by
  rw [parse_line_eq]
  have hmin := filledFields_length line
  rw [if_neg (by rw [hmin]; omega)]
  have hf : (split_csv_line line).getD 3 ⟨0, 0⟩ = ⟨0, 0⟩ :=
    split_getD_default line 3 (by omega)
  rw [hf, extract_default]
  rw [(rfl : fromCharsLong [] = none)]
  split
  · rfl
  · rfl

/-! ## Claim theorems -/

/-- C5: for every window size `N ≥ 1`, an SMA fed `k ≤ N` prices reports
the arithmetic mean of exactly those `k` prices, an SMA fed `k > N` prices
reports the mean of only the `N` most recently fed prices (oldest evicted
first), and an SMA fed no prices reports `0.0`. -/
theorem sma_value_spec (N : ℕ) (hN : 1 ≤ N) (ps : List ℚ) :
    (ps = [] → (feedSMA N ps).get_value = 0) ∧
    (ps ≠ [] → ps.length ≤ N →
      (feedSMA N ps).get_value = ps.sum / (ps.length : ℚ)) ∧
    (N < ps.length →
      (feedSMA N ps).get_value = (ps.drop (ps.length - N)).sum / (N : ℚ)) := by
  have hp := feedSMA_prices N ps
  refine ⟨?_, ?_, ?_⟩
  · intro h
    subst h
    rfl
  · intro hne hle
    unfold SMAIndicator.get_value
    rw [hp, Nat.sub_eq_zero_of_le hle, List.drop_zero, if_neg hne]
  · intro hlt
    have hlen : (ps.drop (ps.length - N)).length = N := by
      rw [List.length_drop]
      omega
    have hne : ps.drop (ps.length - N) ≠ [] := by
      have hpos : 0 < (ps.drop (ps.length - N)).length := by
        rw [hlen]
        omega
      exact List.length_pos.mp hpos
    unfold SMAIndicator.get_value
    rw [hp, if_neg hne, hlen]

/-- Witness for `sma_value_spec` at `N = 2`, prices `[1, 2, 3]`. -/
theorem sma_value_spec_witness :
    1 ≤ 2 ∧ (2 : ℕ) < ([1, 2, 3] : List ℚ).length ∧
    (feedSMA 2 [1, 2, 3]).get_value =
      (([1, 2, 3] : List ℚ).drop (([1, 2, 3] : List ℚ).length - 2)).sum / ((2 : ℕ) : ℚ) :=
  ⟨by decide, by decide, (sma_value_spec 2 (by decide) [1, 2, 3]).2.2 (by decide)⟩

/-- C6: a VWAP update zeroes both accumulators and adopts the new key
exactly when the 10-character timestamp prefix differs from the stored
session key (the very first call included, the stored key then being the
empty sentinel), then accumulates `price*volume` and `volume`; the
documented two-day example yields `200.0`, and `get_value` is `0.0`
whenever the volume accumulator is `0`. -/
theorem vwap_update_spec :
    (∀ (w : VWAPIndicator) (p : ℚ) (v : ℤ) (ts : List Char),
      w.update p v ts =
        if w.current_date ≠ ts.take 10 then
          ⟨p * (v : ℚ), v, ts.take 10⟩
        else
          ⟨w.price_volume_sum + p * (v : ℚ), w.volume_sum + v, w.current_date⟩) ∧
    ((((⟨0, 0, []⟩ : VWAPIndicator).update 100 10 ("2024-01-01T00:00".data)).update
        200 10 ("2024-01-02T00:00".data)).get_value = 200) ∧
    (∀ w : VWAPIndicator, w.volume_sum = 0 → w.get_value = 0) := by
  refine ⟨?_, by decide, ?_⟩
  · intro w p v ts
    simp only [VWAPIndicator.update]
    split
    · simp
    · rfl
  · intro w h
    unfold VWAPIndicator.get_value
    rw [if_pos h]

/-- Witness for the hypothesis-bearing part of `vwap_update_spec`: a state
with zero accumulated volume reports `0.0`. -/
theorem vwap_update_spec_witness :
    (VWAPIndicator.get_value ⟨5, 0, []⟩ : ℚ) = 0 :=
  vwap_update_spec.2.2 ⟨5, 0, []⟩ rfl

/-- C7: volatility reports `0.0` with fewer than 2 retained returns; with
2 or more it reports the Bessel-corrected sample standard deviation over
the most recent up-to-`window_size` returns; feeding `[0, 0, 0]` yields
`0.0` for every window size. -/
theorem volatility_value_spec (N : ℕ) (rs : List ℚ) :
    (feedVol N rs).returns = rs.drop (rs.length - N) ∧
    ((rs.drop (rs.length - N)).length < 2 → (feedVol N rs).get_value = 0) ∧
    (2 ≤ (rs.drop (rs.length - N)).length →
      (feedVol N rs).get_value =
        Real.sqrt (((sumSquaredDiffs (rs.drop (rs.length - N))
            (listMean (rs.drop (rs.length - N))) /
          (((rs.drop (rs.length - N)).length : ℚ) - 1) : ℚ) : ℝ))) ∧
    (feedVol N [0, 0, 0]).get_value = 0 := by
  have hr := feedVol_returns N rs
  refine ⟨hr, ?_, ?_, ?_⟩
  · intro h
    unfold VolatilityIndicator.get_value
    rw [hr, if_pos h]
  · intro h
    unfold VolatilityIndicator.get_value VolatilityIndicator.variance
    rw [hr, if_neg (by omega)]
  · have hr0 := feedVol_returns N [0, 0, 0]
    unfold VolatilityIndicator.get_value VolatilityIndicator.variance
    rw [hr0]
    set l : List ℚ := ([0, 0, 0] : List ℚ).drop (([0, 0, 0] : List ℚ).length - N) with hl
    have hz : ∀ x ∈ l, x = (0 : ℚ) := by
      intro x hx
      rw [hl] at hx
      have hmem := List.mem_of_mem_drop hx
      have hcases : x = 0 ∨ x = 0 ∨ x = 0 := by simpa using hmem
      rcases hcases with h | h | h <;> exact h
    by_cases hlen : l.length < 2
    · rw [if_pos hlen]
    · rw [if_neg hlen]
      have hsum : l.sum = 0 := List.sum_eq_zero hz
      have hmean : listMean l = 0 := by
        unfold listMean
        rw [hsum, zero_div]
      have hsq : sumSquaredDiffs l 0 = 0 := by
        unfold sumSquaredDiffs
        refine List.sum_eq_zero ?_
        intro y hy
        rcases List.mem_map.mp hy with ⟨x, hx, rfl⟩
        rw [hz x hx]
        ring
      rw [hmean, hsq, zero_div, Rat.cast_zero, Real.sqrt_zero]

/-- Witness for `volatility_value_spec` at `N = 2`, returns `[1, 3, 5]`. -/
theorem volatility_value_spec_witness :
    2 ≤ (([1, 3, 5] : List ℚ).drop (([1, 3, 5] : List ℚ).length - 2)).length ∧
    (feedVol 2 [1, 3, 5]).get_value =
      Real.sqrt (((sumSquaredDiffs (([1, 3, 5] : List ℚ).drop (([1, 3, 5] : List ℚ).length - 2))
          (listMean (([1, 3, 5] : List ℚ).drop (([1, 3, 5] : List ℚ).length - 2))) /
        (((([1, 3, 5] : List ℚ).drop (([1, 3, 5] : List ℚ).length - 2)).length : ℚ) - 1) : ℚ) : ℝ)) :=
  ⟨by decide, (volatility_value_spec 2 [1, 3, 5]).2.2.1 (by decide)⟩

/-- C8: the first `update` on a freshly constructed `Series` stores the
price as `last_price` and leaves every sub-indicator's state — hence every
`get_indicator` value — unchanged. -/
theorem series_first_update_frame (sw : ℕ) (al : ℚ) (vw : ℕ) (p : ℚ) (v : ℤ)
    (ts : List Char) :
    (Series.init sw al vw).update p v ts
      = { Series.init sw al vw with last_price := p } ∧
    ∀ t : IndicatorType,
      ((Series.init sw al vw).update p v ts).get_indicator t
        = (Series.init sw al vw).get_indicator t := by
  have hc : (Series.init sw al vw).last_price = 0 := rfl
  have h : (Series.init sw al vw).update p v ts
      = { Series.init sw al vw with last_price := p } := by
    unfold Series.update
    rw [if_pos hc]
  refine ⟨h, fun t => ?_⟩
  rw [h]
  cases t <;> rfl

/-- C10: the return computation's division is reachable only with a
non-zero denominator (`updateChecked`, which refuses a zero divisor, never
refuses), the zero sentinel always takes the seed branch first, and an
update with price `0.0` leaves `last_price = 0`, i.e. the series is
unseeded for the next call. -/
theorem series_update_division_guarded (s : Series) (p : ℚ) (v : ℤ)
    (ts : List Char) :
    s.updateChecked p v ts = some (s.update p v ts) ∧
    (s.last_price = 0 → s.update p v ts = { s with last_price := p }) ∧
    (s.update 0 v ts).last_price = 0 := by
  refine ⟨?_, ?_, ?_⟩
  · unfold Series.updateChecked Series.update divChecked
    by_cases h : s.last_price = 0
    · rw [if_pos h, if_pos h]
    · rw [if_neg h, if_neg h, if_neg h]
      rfl
  · intro h
    unfold Series.update
    rw [if_pos h]
  · unfold Series.update
    by_cases h : s.last_price = 0
    · rw [if_pos h]
    · rw [if_neg h]

/-- Witness for `series_update_division_guarded`: the seed branch on a
fresh series. -/
theorem series_update_division_guarded_witness :
    (Series.init 2 (1 / 2) 2).last_price = 0 ∧
    (Series.init 2 (1 / 2) 2).update 7 1 []
      = { Series.init 2 (1 / 2) 2 with last_price := 7 } :=
  ⟨rfl, (series_update_division_guarded (Series.init 2 (1 / 2) 2) 7 1 []).2.1 rfl⟩

/-- C9: with a symbol filter configured, a valid row for a non-matching
symbol is dropped before the registry is consulted: no output is emitted,
no series is created or updated, the registry is returned untouched. -/
theorem filtered_symbol_no_effect (cfg : CLIConfig) (reg : Registry)
    (line : List Char) (row : ParsedRow)
    (hf : cfg.filter_symbol = "AAPL".data)
    (hp : parse_line line = some row)
    (hv : row.valid = true)
    (hs : row.symbol ≠ "AAPL".data) :
    processLine cfg reg line = some (reg, none) := by
  have hne : line ≠ [] := by
    intro h
    rw [h, (by decide : parse_line ([] : List Char) = none)] at hp
    exact Option.noConfusion hp
  simp only [processLine, hp]
  rw [if_neg hne]
  have h1 : ¬(row.valid = false) := by
    rw [hv]
    decide
  rw [if_neg h1]
  have h2 : cfg.filter_symbol ≠ [] ∧ row.symbol ≠ cfg.filter_symbol := by
    rw [hf]
    exact ⟨by decide, hs⟩
  rw [if_pos h2]

/-- Witness for `filtered_symbol_no_effect`: an MSFT row against an AAPL
filter on an empty registry. -/
theorem filtered_symbol_no_effect_witness :
    processLine ⟨20, 50, 30, false, false, false, false, "AAPL".data⟩ []
      ("2023-09-15 09:30:00,MSFT,150.00,1000".data) = some ([], none) :=
  filtered_symbol_no_effect _ _ _
    ⟨"2023-09-15 09:30:00".data, "MSFT".data, 150, 1000, true⟩
    rfl (by decide) (by decide) (by decide)

/-- C4 (amended): the tokenizer records `min (commas+1) 4` spans; they are
non-overlapping, contiguous and cover the whole line whenever the line has
at most 3 commas (with more commas the text after the fourth comma is not
spanned).  A short field set is handled in two different ways by the
caller: with exactly 2 commas the parse fails gracefully (`valid=false`
via the failing empty volume conversion), while with fewer than 2 commas
the price slot is still the zero-initialised null span and the caller runs
into `strtod(nullptr)` — undefined behaviour, not a graceful failure. -/
theorem split_csv_line_spans (line : List Char) :
    (filledFields line).length = min (commaCount line + 1) 4 ∧
    (commaCount line ≤ 3 → spansCover line.length 0 (filledFields line) = true) ∧
    (commaCount line = 2 → parse_line line = some ParsedRow.invalid) ∧
    (commaCount line < 2 → parse_line line = none) := by
  exact ⟨filledFields_length line, fun h => filledFields_cover line h,
    fun h => parse_line_invalid_of_two_commas line h,
    fun h => (parse_line_none_iff line).mpr h⟩

/-- C4 counterexample: on a line with more than 3 commas the four recorded
spans do not cover the whole line — `"a,b,c,d,e"` has length 9 but the
spans stop at index 7, dropping `",e"`; and on a 1-comma line the caller
does not treat the short field set as a parse failure but reaches
`strtod(nullptr)` (modelled as `none`). -/
theorem split_csv_line_spans_counterexample :
    commaCount ("a,b,c,d,e".data) = 4 ∧
    filledFields ("a,b,c,d,e".data) = [⟨0, 1⟩, ⟨2, 1⟩, ⟨4, 1⟩, ⟨6, 1⟩] ∧
    ("a,b,c,d,e".data).length = 9 ∧
    spansCover ("a,b,c,d,e".data).length 0 (filledFields ("a,b,c,d,e".data)) = false ∧
    parse_line ("a,b".data) = none := by
  refine ⟨by decide, by decide, by decide, by decide, by decide⟩

/-- Witness for `split_csv_line_spans` on concrete lines. -/
theorem split_csv_line_spans_witness :
    (commaCount ("a,b,c,d".data) ≤ 3 ∧
      spansCover ("a,b,c,d".data).length 0 (filledFields ("a,b,c,d".data)) = true) ∧
    (commaCount ("a,b,c".data) = 2 ∧
      parse_line ("a,b,c".data) = some ParsedRow.invalid) ∧
    (commaCount ("a".data) < 2 ∧ parse_line ("a".data) = none) :=
  ⟨⟨by decide, (split_csv_line_spans ("a,b,c,d".data)).2.1 (by decide)⟩,
   ⟨by decide, (split_csv_line_spans ("a,b,c".data)).2.2.1 (by decide)⟩,
   ⟨by decide, (split_csv_line_spans ("a".data)).2.2.2 (by decide)⟩⟩

/-- C1 (amended): on the lines where its behaviour is defined at all
(at least 2 commas), `parse_line` marks a row invalid exactly when the
price field is not a fully consumed `strtod` conversion or the volume
field has no successful `from_chars` conversion (full consumption of the
volume field is NOT required); on success timestamp and symbol are taken
verbatim from their spans and price and volume are the converted values.
A missing volume field (exactly 2 commas) is the zero span, whose empty
text fails the conversion; a missing price field (fewer than 2 commas)
drives the code into `strtod(nullptr)` — undefined behaviour, modelled as
`none`, so no `valid` flag exists there at all. -/
theorem parse_line_valid_characterization (line : List Char) :
    (parse_line line = none ↔ commaCount line < 2) ∧
    (∀ row : ParsedRow, parse_line line = some row →
      ((row.valid = false ↔
        (strtod (extractField line ((split_csv_line line).getD 2 ⟨0, 0⟩))).2 = 0 ∨
        (strtod (extractField line ((split_csv_line line).getD 2 ⟨0, 0⟩))).2 ≠
          ((split_csv_line line).getD 2 ⟨0, 0⟩).length ∨
        fromCharsLong (extractField line ((split_csv_line line).getD 3 ⟨0, 0⟩)) = none) ∧
       (row.valid = true →
        row.timestamp = extractField line ((split_csv_line line).getD 0 ⟨0, 0⟩) ∧
        row.symbol = extractField line ((split_csv_line line).getD 1 ⟨0, 0⟩) ∧
        row.price = (strtod (extractField line ((split_csv_line line).getD 2 ⟨0, 0⟩))).1 ∧
        some row.volume
          = (fromCharsLong (extractField line ((split_csv_line line).getD 3 ⟨0, 0⟩))).map
              Prod.fst))) := by
  refine ⟨parse_line_none_iff line, ?_⟩
  intro row hrow
  rw [parse_line_eq] at hrow
  by_cases h0 : (filledFields line).length ≤ 2
  · rw [if_pos h0] at hrow
    exact Option.noConfusion hrow
  · rw [if_neg h0] at hrow
    by_cases hpc : (strtod (extractField line ((split_csv_line line).getD 2 ⟨0, 0⟩))).2 = 0 ∨
        (strtod (extractField line ((split_csv_line line).getD 2 ⟨0, 0⟩))).2 ≠
          ((split_csv_line line).getD 2 ⟨0, 0⟩).length
    · rw [if_pos hpc] at hrow
      obtain rfl := Option.some.inj hrow
      constructor
      · exact iff_of_true rfl (by tauto)
      · intro hv
        exact absurd hv (by decide)
    · rw [if_neg hpc] at hrow
      split at hrow
      · rename_i heq
        obtain rfl := Option.some.inj hrow
        constructor
        · exact iff_of_true rfl (Or.inr (Or.inr heq))
        · intro hv
          exact absurd hv (by decide)
      · rename_i vol consumed heq
        obtain rfl := Option.some.inj hrow
        constructor
        · refine iff_of_false (fun h => Bool.noConfusion h) ?_
          rintro (h | h | h)
          · exact hpc (Or.inl h)
          · exact hpc (Or.inr h)
          · rw [heq] at h
            exact Option.noConfusion h
        · intro _
          refine ⟨rfl, rfl, rfl, ?_⟩
          rw [heq]
          rfl

/-- C1 counterexample: trailing garbage after the volume integer is
accepted (`from_chars` consumed only 3 of the 4 characters of `"100x"`),
and a five-field line is truncated to its first four fields and accepted —
both contradicting the claimed iff. -/
theorem parse_line_valid_counterexample :
    parse_line ("t,S,1.5,100x".data)
      = some ⟨"t".data, "S".data, 3 / 2, 100, true⟩ ∧
    extractField ("t,S,1.5,100x".data)
      ((split_csv_line ("t,S,1.5,100x".data)).getD 3 ⟨0, 0⟩) = "100x".data ∧
    fromCharsLong ("100x".data) = some (100, 3) ∧
    ("100x".data).length = 4 ∧
    parse_line ("t,S,1.5,100,x".data)
      = some ⟨"t".data, "S".data, 3 / 2, 100, true⟩ ∧
    commaCount ("t,S,1.5,100,x".data) = 4 := by
  refine ⟨by decide, by decide, by decide, by decide, by decide, by decide⟩

/-- Witness for `parse_line_valid_characterization` on a well-formed row. -/
theorem parse_line_valid_characterization_witness :
    (⟨"t".data, "SYM".data, 12345 / 100, 1000, true⟩ : ParsedRow).timestamp
        = extractField ("t,SYM,123.45,1000".data)
            ((split_csv_line ("t,SYM,123.45,1000".data)).getD 0 ⟨0, 0⟩) ∧
    (⟨"t".data, "SYM".data, 12345 / 100, 1000, true⟩ : ParsedRow).symbol
        = extractField ("t,SYM,123.45,1000".data)
            ((split_csv_line ("t,SYM,123.45,1000".data)).getD 1 ⟨0, 0⟩) ∧
    (⟨"t".data, "SYM".data, 12345 / 100, 1000, true⟩ : ParsedRow).price
        = (strtod (extractField ("t,SYM,123.45,1000".data)
            ((split_csv_line ("t,SYM,123.45,1000".data)).getD 2 ⟨0, 0⟩))).1 ∧
    some (⟨"t".data, "SYM".data, 12345 / 100, 1000, true⟩ : ParsedRow).volume
        = (fromCharsLong (extractField ("t,SYM,123.45,1000".data)
            ((split_csv_line ("t,SYM,123.45,1000".data)).getD 3 ⟨0, 0⟩))).map Prod.fst :=
  ((parse_line_valid_characterization ("t,SYM,123.45,1000".data)).2
    ⟨"t".data, "SYM".data, 12345 / 100, 1000, true⟩ (by decide)).2 (by decide)

/-- C2 (code bug in `src/analyzer.cpp`): on a series where SMA and EMA
differ (`sma_window=1`, `ema_span=3` so `alpha=1/2`, prices seed,100,200:
SMA `200`, EMA `150`), the `src/analyzer.cpp` row printer emits the SMA
value in the `ema` column, while the `part_000` printer emits the EMA
value as the claim states. -/
theorem ema_column_prints_sma :
    printRowIndicatorsMain ⟨1, 3, 1, false, true, false, false, []⟩
        ((((mkSeries ⟨1, 3, 1, false, true, false, false, []⟩).update 100 1
            ("t".data)).update 100 1 ("t".data)).update 200 1 ("t".data))
      = [((((mkSeries ⟨1, 3, 1, false, true, false, false, []⟩).update 100 1
            ("t".data)).update 100 1 ("t".data)).update 200 1 ("t".data)).get_indicator
          IndicatorType.SMA] ∧
    printRowIndicators ⟨1, 3, 1, false, true, false, false, []⟩
        ((((mkSeries ⟨1, 3, 1, false, true, false, false, []⟩).update 100 1
            ("t".data)).update 100 1 ("t".data)).update 200 1 ("t".data))
      = [((((mkSeries ⟨1, 3, 1, false, true, false, false, []⟩).update 100 1
            ("t".data)).update 100 1 ("t".data)).update 200 1 ("t".data)).get_indicator
          IndicatorType.EMA] ∧
    ((((mkSeries ⟨1, 3, 1, false, true, false, false, []⟩).update 100 1
        ("t".data)).update 100 1 ("t".data)).update 200 1 ("t".data)).get_indicator
        IndicatorType.SMA
      ≠ ((((mkSeries ⟨1, 3, 1, false, true, false, false, []⟩).update 100 1
          ("t".data)).update 100 1 ("t".data)).update 200 1 ("t".data)).get_indicator
          IndicatorType.EMA := by
  refine ⟨rfl, rfl, ?_⟩
  have h1 : ((((mkSeries ⟨1, 3, 1, false, true, false, false, []⟩).update 100 1
      ("t".data)).update 100 1 ("t".data)).update 200 1 ("t".data)).sma.get_value
      = 200 := by decide
  have h2 : ((((mkSeries ⟨1, 3, 1, false, true, false, false, []⟩).update 100 1
      ("t".data)).update 100 1 ("t".data)).update 200 1 ("t".data)).ema.get_value
      = 150 := by decide
  show (((((mkSeries ⟨1, 3, 1, false, true, false, false, []⟩).update 100 1
      ("t".data)).update 100 1 ("t".data)).update 200 1 ("t".data)).sma.get_value : ℝ)
    ≠ (((((mkSeries ⟨1, 3, 1, false, true, false, false, []⟩).update 100 1
      ("t".data)).update 100 1 ("t".data)).update 200 1 ("t".data)).ema.get_value : ℝ)
  rw [h1, h2]
  norm_num

/-- C3: with `sma_window = 2` the three documented AAPL lines emit SMA
`0.0` (seed row, no sub-indicator update), `150.30` (deque holds only
`150.30`) and `150.45` (mean of `150.30` and `150.60`), each emitted row
reflecting the series state after that row's own update. -/
theorem stream_sma_three_rows :
    ((processLines ⟨2, 50, 30, true, false, false, false, []⟩
        ["2023-09-15 09:30:00,AAPL,150.00,1000".data,
         "2023-09-15 09:30:30,AAPL,150.30,1000".data,
         "2023-09-15 09:31:00,AAPL,150.60,1000".data]).map
      (fun st => st.2.map
        (fun r => printRowIndicators ⟨2, 50, 30, true, false, false, false, []⟩ r.2)))
      = some [[(0 : ℝ)], [150.30], [150.45]] := by
  have hq : ((processLines ⟨2, 50, 30, true, false, false, false, []⟩
      ["2023-09-15 09:30:00,AAPL,150.00,1000".data,
       "2023-09-15 09:30:30,AAPL,150.30,1000".data,
       "2023-09-15 09:31:00,AAPL,150.60,1000".data]).map
      (fun st => st.2.map (fun r => r.2.sma.get_value)))
      = some [0, 1503 / 10, 3009 / 20] := by decide
  cases hps : processLines ⟨2, 50, 30, true, false, false, false, []⟩
      ["2023-09-15 09:30:00,AAPL,150.00,1000".data,
       "2023-09-15 09:30:30,AAPL,150.30,1000".data,
       "2023-09-15 09:31:00,AAPL,150.60,1000".data] with
  | none =>
    rw [hps] at hq
    exact Option.noConfusion hq
  | some st =>
    rw [hps] at hq
    have hq2 : st.2.map (fun r => r.2.sma.get_value) = [0, 1503 / 10, 3009 / 20] :=
      Option.some.inj hq
    refine congrArg some ?_
    have hfun : (fun r : ParsedRow × Series =>
          printRowIndicators ⟨2, 50, 30, true, false, false, false, []⟩ r.2)
        = (fun q : ℚ => [(q : ℝ)]) ∘ (fun r : ParsedRow × Series => r.2.sma.get_value) := by
      funext r
      rfl
    show st.2.map (fun r =>
        printRowIndicators ⟨2, 50, 30, true, false, false, false, []⟩ r.2)
      = [[(0 : ℝ)], [150.30], [150.45]]
    rw [hfun, ← List.map_map, hq2]
    norm_num
